import Mathlib

/-!
Shallow embedding of `backend/app/services/graphrag.py`: the `Document`
entity, the `StubGraphRAGChatEngine` fallback engine, the production-mode
parts of `GraphRAGService` (ingest, stream_chat, mode selection), and a
small-step model of the thread-to-event-loop streaming bridge used by the
production `stream_chat`.

Python strings are modelled as Lean `String`s, with the `str` operations the
code uses re-implemented over character lists so that everything reduces in
the kernel.  `str.lower`, `str.strip`, `str.split()` and `str.splitlines`
are modelled for the character repertoire the code can meet (ASCII plus the
extra control characters Python treats as spaces / line breaks); exotic
Unicode case mappings are out of the modelled range.
-/

namespace GraphRAG

/-- Python `str.lower` for one character (ASCII range). -/
def charLower (c : Char) : Char :=
  if 'A' ≤ c ∧ c ≤ 'Z' then Char.ofNat (c.toNat + 32) else c

/-- Python `str.lower`. -/
def pyLower (s : String) : String := ⟨s.data.map charLower⟩

/-- The characters Python `str.split()` / `str.strip()` treat as whitespace
(ASCII repertoire: space, tab, newline, carriage return, vertical tab,
form feed, and the file/group/record separators). -/
def pyIsSpace (c : Char) : Bool :=
  c.isWhitespace || c == Char.ofNat 11 || c == Char.ofNat 12 ||
    c == Char.ofNat 28 || c == Char.ofNat 29 || c == Char.ofNat 30

/-- Python `str.strip()` on a character list: drop whitespace at both ends. -/
def stripChars (l : List Char) : List Char :=
  ((l.dropWhile pyIsSpace).reverse.dropWhile pyIsSpace).reverse

/-- Python `str.strip()`. -/
def pyStrip (s : String) : String := ⟨stripChars s.data⟩

/-- Split a character list at every whitespace character (keeping empty
pieces; Python `str.split()` is this followed by dropping the empties). -/
def splitWsGo : List Char → List Char → List (List Char)
  | [], acc => [acc.reverse]
  | c :: rest, acc =>
    if pyIsSpace c then acc.reverse :: splitWsGo rest []
    else splitWsGo rest (c :: acc)

/-- Python `str.split()` (no argument): split on whitespace runs, no empty
pieces in the result. -/
def pySplit (s : String) : List String :=
  ((splitWsGo s.data []).filter (fun p => ¬p.isEmpty)).map String.mk

/-- The characters Python `str.splitlines` treats as a line boundary
(ASCII repertoire; `\r\n` is handled as one boundary by `splitlinesGo`). -/
def isLineBreak (c : Char) : Bool :=
  c == '\n' || c == '\r' || c == Char.ofNat 11 || c == Char.ofNat 12 ||
    c == Char.ofNat 28 || c == Char.ofNat 29 || c == Char.ofNat 30

/-- Python `str.splitlines` on a character list, accumulator style: no
entry for a trailing line terminator, `\r\n` counts as one terminator. -/
def splitlinesGo : List Char → List Char → List (List Char)
  | [], acc => if acc.isEmpty then [] else [acc.reverse]
  | '\r' :: '\n' :: rest, acc => acc.reverse :: splitlinesGo rest []
  | c :: rest, acc =>
    if isLineBreak c then acc.reverse :: splitlinesGo rest []
    else splitlinesGo rest (c :: acc)

/-- Python `str.splitlines`. -/
def pySplitlines (s : String) : List String :=
  (splitlinesGo s.data []).map String.mk

/-- Python `needle in haystack` for strings: substring containment. -/
def pyContains (haystack needle : String) : Bool :=
  decide (needle.data <:+: haystack.data)

/-- `Document` (graphrag.py): a named unit of text plus provenance
metadata.  `metadata : Dict[str, str]` becomes an association list. -/
structure Document where
  name : String
  content : String
  metadata : List (String × String) := []
deriving DecidableEq

/-- Python `dict` insertion for a name-keyed document store: replacing an
existing key keeps its position, a new key is appended (insertion order). -/
def dictInsert (m : List Document) (d : Document) : List Document :=
  if m.any (fun x => x.name == d.name) then
    m.map (fun x => if x.name == d.name then d else x)
  else m ++ [d]

/-- `{doc.name: doc for doc in docs}`: a dict built left to right. -/
def mkDocMap (docs : List Document) : List Document :=
  docs.foldl dictInsert []

/-- The summary dict returned by `StubGraphRAGChatEngine.ingest`. -/
structure StubIngestSummary where
  documents_ingested : Nat
  total_documents : Nat
deriving DecidableEq

/-- State of `StubGraphRAGChatEngine`: the name-keyed document store
(insertion ordered) and the `(role, content)` session log. -/
structure StubGraphRAGChatEngine where
  documents : List Document := []
  chatHistory : List (String × String) := []
deriving DecidableEq

namespace StubGraphRAGChatEngine

/-- `StubGraphRAGChatEngine.ingest`: insert every document by name,
counting insertions. -/
def ingest (s : StubGraphRAGChatEngine) (docs : List Document) :
    StubGraphRAGChatEngine × StubIngestSummary :=
  let store := docs.foldl dictInsert s.documents
  (⟨store, s.chatHistory⟩,
   ⟨docs.length, store.length⟩)

/-- `StubGraphRAGChatEngine.get_documents`: the stored documents in
insertion order. -/
def getDocuments (s : StubGraphRAGChatEngine) : List Document :=
  s.documents

/-- `StubGraphRAGChatEngine.reset`: clear store and session log. -/
def reset (_s : StubGraphRAGChatEngine) : StubGraphRAGChatEngine :=
  ⟨[], []⟩

/-- `StubGraphRAGChatEngine._build_highlights`: rank documents by the
number of distinct lower-cased prompt tokens occurring as substrings of
the lower-cased content; keep positive scores, sort stably by score
descending (Python's stable `sort` with `reverse=True`), take 3. -/
def scoreDoc (tokens : Finset String) (d : Document) : Nat :=
  (tokens.filter (fun t => pyContains (pyLower d.content) t = true)).card

/-- Stable descending insertion by score: an element is placed after every
element of score ≥ its own, which reproduces Python's stable sort with
`reverse=True`. -/
def insertDesc (x : Document × Nat) : List (Document × Nat) → List (Document × Nat)
  | [] => [x]
  | y :: ys => if y.2 < x.2 then x :: y :: ys else y :: insertDesc x ys

/-- Stable descending sort by score. -/
def sortDesc (l : List (Document × Nat)) : List (Document × Nat) :=
  l.foldr insertDesc []

/-- The set `{token.lower() for token in prompt.split() if token}`. -/
def promptTokens (prompt : String) : Finset String :=
  ((pySplit prompt).map pyLower).toFinset

/-- `_build_highlights` with the token set already computed. -/
def buildHighlightsTokens (store : List Document) (tokens : Finset String) :
    List (Document × Nat) :=
  if tokens = ∅ ∨ store = [] then []
  else
    let ranked := (store.map (fun d => (d, scoreDoc tokens d))).filter
      (fun p => p.2 ≠ 0)
    (sortDesc ranked).take 3

/-- `StubGraphRAGChatEngine._build_highlights`. -/
def buildHighlights (s : StubGraphRAGChatEngine) (prompt : String) :
    List (Document × Nat) :=
  buildHighlightsTokens s.documents (promptTokens prompt)

/-- The per-document summary line of `_render_answer`'s rule-C branch:
`f"{document.name} (score {score}): {excerpt}"` where the excerpt is built
from the first two lines of the stripped content. -/
def summaryLine (d : Document) (score : Nat) : String :=
  let snippet := (pySplitlines (pyStrip d.content)).take 2
  let excerpt := String.intercalate " / "
    ((snippet.map pyStrip).filter (fun part => part ≠ ""))
  d.name ++ " (score " ++ toString score ++ "): " ++ excerpt

/-- `StubGraphRAGChatEngine._render_answer`. -/
def renderAnswer (s : StubGraphRAGChatEngine) (prompt : String)
    (highlights : List (Document × Nat)) : String :=
  if s.documents = [] then
    "No knowledge available yet. Please ingest documents and try again."
  else if highlights = [] then
    "No direct match found for '" ++ prompt ++ "'. Available documents: " ++
      String.intercalate ", " (s.documents.map Document.name) ++ "."
  else
    "Prompt: " ++ prompt ++ "\nTop sources: " ++
      String.intercalate " | " (highlights.map (fun p => summaryLine p.1 p.2))

/-- The deterministic answer `stream_chat` renders for a prompt. -/
def answerFor (s : StubGraphRAGChatEngine) (prompt : String) : String :=
  renderAnswer s prompt (buildHighlights s prompt)

/-- `StubGraphRAGChatEngine.stream_chat`: append the user turn and the
assistant turn to the session log, then yield each whitespace-delimited
word of the answer followed by one space. -/
def streamChat (s : StubGraphRAGChatEngine) (prompt : String) :
    StubGraphRAGChatEngine × List String :=
  let answer := answerFor s prompt
  (⟨s.documents,
    s.chatHistory ++ [("user", prompt), ("assistant", answer)]⟩,
   (pySplit answer).map (fun chunk => chunk ++ " "))

end StubGraphRAGChatEngine

/-- The configuration fields of `GraphRAGConfig` the production paths read
(`base_path`, connection and model parameters only feed the opaque SDK). -/
structure GraphRAGConfig where
  kgName : String
  ontologyPath : String
  autoRefreshOntology : Bool
  resetBeforeIngest : Bool
  forceStub : Bool
deriving DecidableEq

/-- The summary dict built by `GraphRAGService.ingest` (production and stub
branches): `None` values become `Option.none`. -/
structure IngestSummary where
  documents_ingested : Nat
  total_documents : Nat
  graph_name : Option String
  ontology_path : Option String
  ontology_refreshed : Bool
  using_stub : Bool
  document_names : List String
deriving DecidableEq

/-- Production-mode state of `GraphRAGService`: the name-keyed document map,
whether `_knowledge_graph` / `_model_config` are set, and the opaque
`_ontology` / `_chat_session` handles (modelled as numeric ids, `None`
as `Option.none`). -/
structure GraphRAGService where
  documents : List Document := []
  hasKnowledgeGraph : Bool := true
  hasModelConfig : Bool := true
  ontology : Option Nat := none
  chatSession : Option Nat := none
  lastIngestSummary : Option IngestSummary := none
deriving DecidableEq

/-- Outcomes of the opaque SDK calls one production `ingest` may make:
whether `process_sources` succeeds, the ontology `Ontology.from_sources`
would build (error message when it raises), the fresh handle
`chat_session()` returns, and — for the `reset_before_ingest` path — the
outcome of `_initialise_real_backend` (the reloaded ontology on success,
a configuration-error message on failure). -/
structure BackendEffects where
  processSourcesOk : Bool
  builtOntology : Except String Nat
  freshSession : Nat
  reinit : Except String (Option Nat)

namespace GraphRAGService

/-- The state `_initialise_real_backend` leaves on success: fresh graph and
model config, `_ontology` from the graph / disk, no chat session, empty
document map (`GraphRAGService.reset`, production branch; the best-effort
`delete()` has no modelled state). -/
def reinitState (s : GraphRAGService) (loadedOntology : Option Nat) :
    GraphRAGService :=
  { s with documents := [], hasKnowledgeGraph := true, hasModelConfig := true,
           ontology := loadedOntology, chatSession := none }

/-- The summary `GraphRAGService.ingest` builds for `documents = []`
(production branch). -/
def emptyIngestSummary (cfg : GraphRAGConfig) (s : GraphRAGService) :
    IngestSummary :=
  { documents_ingested := 0,
    total_documents := s.documents.length,
    graph_name := some cfg.kgName,
    ontology_path := some cfg.ontologyPath,
    ontology_refreshed := false,
    using_stub := false,
    document_names := [] }

/-- `GraphRAGService.ingest`, production branch (`self._using_stub` false).
Raised `GraphRAGConfigurationError`s become `Except.error` carrying the
message. -/
def ingest (cfg : GraphRAGConfig) (eff : BackendEffects)
    (s : GraphRAGService) (docs : List Document) :
    Except String (GraphRAGService × IngestSummary) :=
  if ¬s.hasKnowledgeGraph ∨ ¬s.hasModelConfig then
    .error "Knowledge graph backend is not available"
  else if docs = [] then
    let summary := emptyIngestSummary cfg s
    .ok ({ s with lastIngestSummary := some summary }, summary)
  else do
    let s ←
      if cfg.resetBeforeIngest then
        match eff.reinit with
        | .error e => .error e
        | .ok loaded => .ok (reinitState s loaded)
      else .ok s
    let (s, refreshed) ←
      if cfg.autoRefreshOntology ∨ s.ontology = none then
        match eff.builtOntology with
        | .error e => .error ("Failed to build ontology: " ++ e)
        | .ok o => .ok ({ s with ontology := some o }, true)
      else .ok (s, false)
    if ¬eff.processSourcesOk then
      .error "Failed to process sources"
    else
      let newDocs := mkDocMap docs
      let summary : IngestSummary :=
        { documents_ingested := docs.length,
          total_documents := newDocs.length,
          graph_name := some cfg.kgName,
          ontology_path := some cfg.ontologyPath,
          ontology_refreshed := refreshed,
          using_stub := false,
          document_names := docs.map Document.name }
      .ok ({ s with documents := newDocs,
                    chatSession := some eff.freshSession,
                    lastIngestSummary := some summary }, summary)

/-- `GraphRAGService.get_documents`, production branch: the values of the
document map in insertion order. -/
def getDocuments (s : GraphRAGService) : List Document :=
  s.documents

/-- `GraphRAGService.stream_chat`, production branch, as a function from
the producer's behaviour (the fragments `send_message_stream` emits, and
whether it then raises) to what the consumer observes: the fragments
yielded in order, then optionally a configuration error.  The
fragment-by-fragment justification of the `else` branch is the small-step
bridge model `StreamBridge` below. -/
def streamChat (s : GraphRAGService) (producerFragments : List String)
    (producerRaises : Bool) : List String × Option String :=
  if s.chatSession = none then
    ([], some "No active chat session. Ingest documents first.")
  else
    (producerFragments,
     if producerRaises then some "GraphRAG streaming failed" else none)

/-- `GraphRAGService.__init__` mode selection: `force_stub` keyword
argument overriding `config.force_stub`, then the `HAS_GRAPH_BACKEND`
check, then `_initialise_real_backend` with `GraphRAGConfigurationError`
absorbed into stub mode.  Returns the resulting `_using_stub`. -/
def initUsingStub (forceStubArg : Option Bool) (configForceStub : Bool)
    (hasGraphBackend : Bool) (initRaisesConfigError : Bool) : Bool :=
  let usingStub := forceStubArg.getD configForceStub
  let usingStub := if ¬usingStub ∧ ¬hasGraphBackend then true else usingStub
  if usingStub then true
  else if initRaisesConfigError then true
  else false

end GraphRAGService

/-!
Small-step model of the production `stream_chat` bridge: a worker thread
iterates the blocking producer, pushing each fragment into a FIFO queue
bound to the event loop, records a raised exception in `error`, and in
`finally` pushes a `None` sentinel; the consumer dequeues until the
sentinel, yielding each fragment, then raises a configuration error iff an
exception was recorded.  The producer's behaviour is the parameter pair
(fragments it emits, whether it then raises).
-/

namespace StreamBridge

/-- Joint state of worker thread, queue and consumer. -/
structure BridgeState where
  pending : List String
  queue : List (Option String)
  sentinelSent : Bool
  errors : List String
  observed : List String
  done : Bool
deriving DecidableEq

/-- Initial state: the producer has everything still to emit, the queue is
empty, nothing observed. -/
def initState (fragments : List String) : BridgeState :=
  ⟨fragments, [], false, [], [], false⟩

/-- One scheduler step of the bridge, for a producer that raises
(`raises`) with message `errMsg` after its last fragment. -/
inductive Step (raises : Bool) (errMsg : String) :
    BridgeState → BridgeState → Prop
  | emit (f : String) (rest : List String) (q : List (Option String))
      (errs obs : List String) (d : Bool) :
      Step raises errMsg ⟨f :: rest, q, false, errs, obs, d⟩
        ⟨rest, q ++ [some f], false, errs, obs, d⟩
  | finishOk (q : List (Option String)) (errs obs : List String) (d : Bool) :
      raises = false →
      Step raises errMsg ⟨[], q, false, errs, obs, d⟩
        ⟨[], q ++ [none], true, errs, obs, d⟩
  | finishErr (q : List (Option String)) (errs obs : List String) (d : Bool) :
      raises = true →
      Step raises errMsg ⟨[], q, false, errs, obs, d⟩
        ⟨[], q ++ [none], true, errs ++ [errMsg], obs, d⟩
  | recv (p : List String) (f : String) (q : List (Option String))
      (st : Bool) (errs obs : List String) :
      Step raises errMsg ⟨p, some f :: q, st, errs, obs, false⟩
        ⟨p, q, st, errs, obs ++ [f], false⟩
  | recvSentinel (p : List String) (q : List (Option String)) (st : Bool)
      (errs obs : List String) :
      Step raises errMsg ⟨p, none :: q, st, errs, obs, false⟩
        ⟨p, q, st, errs, obs, true⟩

/-- Executions of the bridge. -/
def Reaches (raises : Bool) (errMsg : String) : BridgeState → BridgeState → Prop :=
  Relation.ReflTransGen (Step raises errMsg)

/-- The consumer's outcome once the stream ends: the fragments it yielded
and whether it then raises a configuration error (`if error:`). -/
def outcome (s : BridgeState) : List String × Bool :=
  (s.observed, !s.errors.isEmpty)

/-- Inductive invariant: nothing is lost or reordered between producer,
queue and consumer; the sentinel sits at the end of the queue from the
moment it is sent until it is consumed; the error list is exactly what the
producer's fate dictates once the sentinel is sent. -/
def Inv (fragments : List String) (raises : Bool) (errMsg : String)
    (s : BridgeState) : Prop :=
  ∃ qs : List String,
    s.queue = qs.map some ++ (if s.sentinelSent ∧ ¬s.done then [none] else []) ∧
    s.observed ++ qs ++ s.pending = fragments ∧
    (s.sentinelSent → s.pending = []) ∧
    (s.done → s.sentinelSent) ∧
    (s.done → s.queue = []) ∧
    s.errors = (if s.sentinelSent ∧ raises then [errMsg] else [])

end StreamBridge

/-- `s` begins with `p` (the spec's "the rendered answer begins with"). -/
def strBeginsWith (s p : String) : Bool :=
  s.data.take p.data.length == p.data

/-- Rendering rule C exactly as the claim words it: the per-document
excerpt is "the first two non-empty lines of the content, stripped, joined
by ' / '" — i.e. first keep the non-empty lines, then take two.  Written
from the spec sentence, to be compared with `summaryLine` from the code. -/
def summaryLineClaimC2 (d : Document) (score : Nat) : String :=
  let nonEmptyLines := (pySplitlines d.content).filter (fun l => pyStrip l ≠ "")
  let excerpt := String.intercalate " / " ((nonEmptyLines.take 2).map pyStrip)
  d.name ++ " (score " ++ toString score ++ "): " ++ excerpt

/-- The whole rule-C answer as the claim words it. -/
def renderAnswerClaimC2 (prompt : String) (highlights : List (Document × Nat)) :
    String :=
  "Prompt: " ++ prompt ++ "\nTop sources: " ++
    String.intercalate " | " (highlights.map (fun p => summaryLineClaimC2 p.1 p.2))

/-- Rendering rule C as amended: the excerpt is built from the first two
lines of the stripped content, keeping only those whose stripped form is
non-empty, each stripped — i.e. take two lines first, then drop empties. -/
def summaryLineAmendedC2 (d : Document) (score : Nat) : String :=
  let firstTwo := (pySplitlines (pyStrip d.content)).take 2
  let excerpt := String.intercalate " / "
    ((firstTwo.filter (fun l => pyStrip l ≠ "")).map pyStrip)
  d.name ++ " (score " ++ toString score ++ "): " ++ excerpt

/-! ## Theorems -/

namespace StreamBridge

/-- The invariant holds in the initial bridge state. -/
theorem inv_initState (fragments : List String) (raises : Bool) (errMsg : String) :
    Inv fragments raises errMsg (initState fragments) := by
  exact ⟨[], by simp [initState]⟩

/-- Every bridge step preserves the invariant. -/
theorem inv_step {fragments : List String} {raises : Bool} {errMsg : String}
    {a b : BridgeState} (hstep : Step raises errMsg a b)
    (hinv : Inv fragments raises errMsg a) :
    Inv fragments raises errMsg b := by
  obtain ⟨qs, hq, h1, h3, h4, h5, h6⟩ := hinv
  cases hstep with
  | emit f rest q errs obs d =>
    dsimp only at hq h1 h3 h4 h5 h6 ⊢
    have hd : d = false := by
      cases d
      · rfl
      · simpa using h4 rfl
    subst hd
    simp only [Bool.false_eq_true, false_and, if_neg, and_false,
      not_false_iff, List.append_nil, if_false] at hq h6
    refine ⟨qs ++ [f], ?_, ?_, ?_, ?_, ?_, ?_⟩ <;> simp_all
  | finishOk q errs obs d hr =>
    dsimp only at hq h1 h3 h4 h5 h6 ⊢
    have hd : d = false := by
      cases d
      · rfl
      · simpa using h4 rfl
    subst hd hr
    simp only [Bool.false_eq_true, false_and, and_false, if_false,
      List.append_nil] at hq h6
    refine ⟨qs, ?_, ?_, ?_, ?_, ?_, ?_⟩ <;> simp_all
  | finishErr q errs obs d hr =>
    dsimp only at hq h1 h3 h4 h5 h6 ⊢
    have hd : d = false := by
      cases d
      · rfl
      · simpa using h4 rfl
    subst hd hr
    simp only [Bool.false_eq_true, false_and, and_false, if_false,
      List.append_nil] at hq h6
    refine ⟨qs, ?_, ?_, ?_, ?_, ?_, ?_⟩ <;> simp_all
  | recv p f q st errs obs =>
    dsimp only at hq h1 h3 h4 h5 h6 ⊢
    cases qs with
    | nil =>
      exfalso
      by_cases hst : st = true
      · simp [hst] at hq
      · simp [hst] at hq
    | cons x qs' =>
      simp only [List.map_cons, List.cons_append, List.cons.injEq] at hq
      obtain ⟨hx, hrest⟩ := hq
      obtain rfl : f = x := by simpa using hx
      refine ⟨qs', hrest, ?_, h3, ?_, ?_, h6⟩
      · simpa using h1
      · intro h
        exact absurd h (by simp)
      · intro h
        exact absurd h (by simp)
  | recvSentinel p q st errs obs =>
    dsimp only at hq h1 h3 h4 h5 h6 ⊢
    cases qs with
    | cons x qs' => simp at hq
    | nil =>
      simp only [List.map_nil, List.nil_append] at hq
      by_cases hst : st = true
      · have hcond : (if st = true ∧ ¬false = true then ([none] : List (Option String)) else []) = [none] := by
          simp [hst]
        rw [hcond] at hq
        obtain rfl : q = [] := by simpa using hq
        refine ⟨[], ?_, ?_, ?_, ?_, ?_, ?_⟩ <;> simp_all
      · simp [hst] at hq

/-- The invariant holds in every reachable bridge state. -/
theorem inv_reaches {fragments : List String} {raises : Bool} {errMsg : String}
    {s : BridgeState}
    (h : Reaches raises errMsg (initState fragments) s) :
    Inv fragments raises errMsg s := by
  induction h with
  | refl => exact inv_initState fragments raises errMsg
  | tail _ hstep ih => exact inv_step hstep ih

/-- C1: in the production `stream_chat` bridge, whenever the consumer
reaches end-of-stream, it has observed exactly the producer's fragments in
emission order; it then raises a configuration error iff the producer
raised after its last fragment — never fewer fragments, and never the
error before the fragments (the error check runs only once the stream is
done). -/
theorem claim_C1 (fragments : List String) (raises : Bool) (errMsg : String)
    (s : BridgeState)
    (hreach : Reaches raises errMsg (initState fragments) s)
    (hdone : s.done = true) :
    outcome s = (fragments, raises) := by
  obtain ⟨qs, hq, h1, h3, h4, h5, h6⟩ := inv_reaches hreach
  have hst : s.sentinelSent = true := h4 hdone
  have hqe : s.queue = [] := h5 hdone
  have hqs : qs = [] := by
    rw [hqe] at hq
    cases qs with
    | nil => rfl
    | cons a l => simp at hq
  have hp : s.pending = [] := h3 hst
  subst hqs
  simp only [List.append_nil, hp] at h1
  have hobs : s.observed = fragments := by simpa using h1
  have herr : s.errors = if raises = true then [errMsg] else [] := by
    rw [h6, hst]
    simp
  cases raises with
  | false => simp [outcome, hobs, herr]
  | true => simp [outcome, hobs, herr]

/-- Witness for C1: a complete interleaving in which the producer emits
"A" and "B" and then raises; the consumer observes both fragments and only
then the error. -/
theorem claim_C1_witness :
    outcome ⟨[], [], true, ["producer failed"], ["A", "B"], true⟩ =
      (["A", "B"], true) := by
  refine claim_C1 ["A", "B"] true "producer failed" _ ?_ rfl
  refine Relation.ReflTransGen.head (Step.emit "A" ["B"] [] [] [] false) ?_
  refine Relation.ReflTransGen.head (Step.emit "B" [] [some "A"] [] [] false) ?_
  refine Relation.ReflTransGen.head
    (Step.finishErr [some "A", some "B"] [] [] false rfl) ?_
  refine Relation.ReflTransGen.head
    (Step.recv [] "A" [some "B", none] true ["producer failed"] []) ?_
  refine Relation.ReflTransGen.head
    (Step.recv [] "B" [none] true ["producer failed"] ["A"]) ?_
  refine Relation.ReflTransGen.head
    (Step.recvSentinel [] [] true ["producer failed"] ["A", "B"]) ?_
  exact Relation.ReflTransGen.refl

end StreamBridge

/-- C4: with a store holding exactly `report.txt` = "Alpha beta" and the
prompt "alpha", the ranking heuristic returns exactly
`[(report.txt, 1)]` and the rendered answer begins with
"Prompt: alpha\nTop sources: report.txt (score 1): Alpha beta". -/
theorem claim_C4 :
    StubGraphRAGChatEngine.buildHighlights
        ⟨[⟨"report.txt", "Alpha beta", []⟩], []⟩ "alpha" =
      [(⟨"report.txt", "Alpha beta", []⟩, 1)] ∧
    strBeginsWith
      (StubGraphRAGChatEngine.answerFor
        ⟨[⟨"report.txt", "Alpha beta", []⟩], []⟩ "alpha")
      "Prompt: alpha\nTop sources: report.txt (score 1): Alpha beta" = true := by
  decide

/-- C6: after `reset()` the document store and the session log are both
cleared (in the sequential model they are cleared in the same atomic
state change), `get_documents()` is empty, and `stream_chat` on any
prompt renders — and streams word by word — the fixed no-knowledge
message. -/
theorem claim_C6 (s : StubGraphRAGChatEngine) (prompt : String) :
    (s.reset).getDocuments = [] ∧
    (s.reset).chatHistory = [] ∧
    StubGraphRAGChatEngine.answerFor s.reset prompt =
      "No knowledge available yet. Please ingest documents and try again." ∧
    ((s.reset).streamChat prompt).2 =
      (pySplit "No knowledge available yet. Please ingest documents and try again.").map
        (fun chunk => chunk ++ " ") := by
  exact ⟨rfl, rfl, rfl, rfl⟩

/-- C7: at construction, stub (fallback) mode is selected exactly when
configuration forces it (the `force_stub` argument, defaulting to
`config.force_stub`), or the SDK could not be loaded, or production
initialization raises a configuration error; in the last case the error
is absorbed and the service is still constructed (the selection function
is total), in stub mode; otherwise production mode is selected. -/
theorem claim_C7 :
    ∀ (forceStubArg : Option Bool)
      (configForceStub hasGraphBackend initRaisesConfigError : Bool),
      GraphRAGService.initUsingStub forceStubArg configForceStub hasGraphBackend
          initRaisesConfigError = true ↔
        (forceStubArg.getD configForceStub = true ∨ hasGraphBackend = false ∨
          initRaisesConfigError = true) := by
  decide

/-- C8: in production mode, `stream_chat` with no active chat session
raises a configuration error and yields no fragment, whatever the backend
producer would have done. -/
theorem claim_C8 (s : GraphRAGService) (frags : List String) (raises : Bool)
    (h : s.chatSession = none) :
    GraphRAGService.streamChat s frags raises =
      ([], some "No active chat session. Ingest documents first.") := by
  simp [GraphRAGService.streamChat, h]

/-- Witness for C8 at a concrete session-less state. -/
theorem claim_C8_witness :
    GraphRAGService.streamChat { chatSession := none } ["x"] false =
      ([], some "No active chat session. Ingest documents first.") :=
  claim_C8 { chatSession := none } ["x"] false rfl

/-- C3: in production mode with an initialized backend, ingesting an empty
document collection leaves the document map, the ontology and the chat
session unchanged (only the remembered last summary is updated) and
returns a well-formed summary with zero ingested count, empty name list,
`ontology_refreshed = false`, and the unchanged store size as
`total_documents`. -/
theorem claim_C3 (cfg : GraphRAGConfig) (eff : BackendEffects) (s : GraphRAGService)
    (hkg : s.hasKnowledgeGraph = true) (hmc : s.hasModelConfig = true) :
    GraphRAGService.ingest cfg eff s [] =
      .ok ({ s with lastIngestSummary := some (GraphRAGService.emptyIngestSummary cfg s) },
           GraphRAGService.emptyIngestSummary cfg s) ∧
    (GraphRAGService.emptyIngestSummary cfg s).documents_ingested = 0 ∧
    (GraphRAGService.emptyIngestSummary cfg s).total_documents = s.documents.length ∧
    (GraphRAGService.emptyIngestSummary cfg s).document_names = [] ∧
    (GraphRAGService.emptyIngestSummary cfg s).ontology_refreshed = false ∧
    (GraphRAGService.emptyIngestSummary cfg s).using_stub = false := by
  refine ⟨?_, rfl, rfl, rfl, rfl, rfl⟩
  simp [GraphRAGService.ingest, hkg, hmc]

/-- Witness for C3 at a concrete initialized production state. -/
theorem claim_C3_witness :
    GraphRAGService.ingest ⟨"kg", "ontology.json", true, false, false⟩
        ⟨true, .ok 0, 0, .ok none⟩ {} [] =
      .ok ({ lastIngestSummary :=
               some (GraphRAGService.emptyIngestSummary
                 ⟨"kg", "ontology.json", true, false, false⟩ {}) },
           GraphRAGService.emptyIngestSummary
             ⟨"kg", "ontology.json", true, false, false⟩ {}) ∧
    (GraphRAGService.emptyIngestSummary ⟨"kg", "ontology.json", true, false, false⟩
        ({} : GraphRAGService)).documents_ingested = 0 ∧
    (GraphRAGService.emptyIngestSummary ⟨"kg", "ontology.json", true, false, false⟩
        ({} : GraphRAGService)).total_documents =
      ({} : GraphRAGService).documents.length ∧
    (GraphRAGService.emptyIngestSummary ⟨"kg", "ontology.json", true, false, false⟩
        ({} : GraphRAGService)).document_names = [] ∧
    (GraphRAGService.emptyIngestSummary ⟨"kg", "ontology.json", true, false, false⟩
        ({} : GraphRAGService)).ontology_refreshed = false ∧
    (GraphRAGService.emptyIngestSummary ⟨"kg", "ontology.json", true, false, false⟩
        ({} : GraphRAGService)).using_stub = false :=
  claim_C3 ⟨"kg", "ontology.json", true, false, false⟩ ⟨true, .ok 0, 0, .ok none⟩ {} rfl rfl

/-- Counterexample to C2 as stated: for the document `d.txt` with content
"Alpha\n\nBeta" and prompt "alpha", the code's excerpt is "Alpha" (it
takes the first two lines and only then drops the empty one), while the
claim's formula ("the first two non-empty lines of the content") predicts
"Alpha / Beta"; the two rendered answers differ. -/
theorem claim_C2_counterexample :
    StubGraphRAGChatEngine.renderAnswer ⟨[⟨"d.txt", "Alpha\n\nBeta", []⟩], []⟩ "alpha"
        (StubGraphRAGChatEngine.buildHighlights ⟨[⟨"d.txt", "Alpha\n\nBeta", []⟩], []⟩ "alpha") =
      "Prompt: alpha\nTop sources: d.txt (score 1): Alpha" ∧
    renderAnswerClaimC2 "alpha"
        (StubGraphRAGChatEngine.buildHighlights ⟨[⟨"d.txt", "Alpha\n\nBeta", []⟩], []⟩ "alpha") =
      "Prompt: alpha\nTop sources: d.txt (score 1): Alpha / Beta" ∧
    StubGraphRAGChatEngine.renderAnswer ⟨[⟨"d.txt", "Alpha\n\nBeta", []⟩], []⟩ "alpha"
        (StubGraphRAGChatEngine.buildHighlights ⟨[⟨"d.txt", "Alpha\n\nBeta", []⟩], []⟩ "alpha") ≠
      renderAnswerClaimC2 "alpha"
        (StubGraphRAGChatEngine.buildHighlights ⟨[⟨"d.txt", "Alpha\n\nBeta", []⟩], []⟩ "alpha") := by
  refine ⟨by decide, by decide, by decide⟩

/-- The code's per-document summary line equals the amended formula: take
the first two lines of the stripped content, keep those whose stripped
form is non-empty, strip each, join by " / ". -/
theorem summaryLine_eq_amended (d : Document) (score : Nat) :
    StubGraphRAGChatEngine.summaryLine d score = summaryLineAmendedC2 d score := by
  unfold StubGraphRAGChatEngine.summaryLine summaryLineAmendedC2
  simp only [List.filter_map]
  rfl

/-- C2 (amended): for every ranked document, the per-document summary is
the document's name, its score, and the stripped non-empty entries among
the first two lines of the stripped content joined by " / "; the summaries
are joined by " | " and prefixed with "Prompt: <prompt>\n" and
"Top sources: ". -/
theorem claim_C2 (s : StubGraphRAGChatEngine) (prompt : String)
    (highlights : List (Document × Nat))
    (hs : s.documents ≠ []) (hh : highlights ≠ []) :
    StubGraphRAGChatEngine.renderAnswer s prompt highlights =
      "Prompt: " ++ prompt ++ "\nTop sources: " ++
        String.intercalate " | "
          (highlights.map (fun p => summaryLineAmendedC2 p.1 p.2)) := by
  unfold StubGraphRAGChatEngine.renderAnswer
  rw [if_neg hs, if_neg hh]
  simp [summaryLine_eq_amended]

/-- Witness for the amended C2 at a concrete store, prompt and ranking. -/
theorem claim_C2_witness :
    StubGraphRAGChatEngine.renderAnswer ⟨[⟨"d.txt", "Alpha\n\nBeta", []⟩], []⟩ "alpha"
        [(⟨"d.txt", "Alpha\n\nBeta", []⟩, 1)] =
      "Prompt: " ++ "alpha" ++ "\nTop sources: " ++
        String.intercalate " | "
          ([(⟨"d.txt", "Alpha\n\nBeta", []⟩, (1 : Nat))].map
            (fun p => summaryLineAmendedC2 p.1 p.2)) :=
  claim_C2 ⟨[⟨"d.txt", "Alpha\n\nBeta", []⟩], []⟩ "alpha"
    [(⟨"d.txt", "Alpha\n\nBeta", []⟩, 1)] (by decide) (by decide)

/-- `any (name == n)` detects exactly membership of `n` among the stored
names. -/
theorem any_name_iff (m : List Document) (n : String) :
    m.any (fun x => x.name == n) = true ↔ n ∈ m.map Document.name := by
  simp only [List.any_eq_true, beq_iff_eq, List.mem_map]

/-- Inserting into the name-keyed store keeps the name list unchanged when
the key exists and appends it otherwise. -/
theorem dictInsert_map_name (m : List Document) (d : Document) :
    (dictInsert m d).map Document.name =
      if m.any (fun x => x.name == d.name) then m.map Document.name
      else m.map Document.name ++ [d.name] := by
  unfold dictInsert
  split
  · simp only [List.map_map]
    apply List.map_congr_left
    intro x hx
    by_cases hb : x.name = d.name
    · simp [Function.comp, hb]
    · simp [Function.comp, hb]
  · simp

/-- Name uniqueness of the store is preserved by insertion. -/
theorem dictInsert_nodup (m : List Document) (d : Document)
    (h : (m.map Document.name).Nodup) :
    ((dictInsert m d).map Document.name).Nodup := by
  rw [dictInsert_map_name]
  split
  · exact h
  · rename_i hany
    have hnotin : d.name ∉ m.map Document.name := by
      rw [← any_name_iff]
      simpa using hany
    simp [List.nodup_append, h, hnotin]

/-- A name absent from the store matches no stored document. -/
theorem filter_name_of_not_mem (m : List Document) (n : String)
    (h : n ∉ m.map Document.name) :
    m.filter (fun x => x.name == n) = [] := by
  rw [List.filter_eq_nil_iff]
  intro x hx
  simp only [beq_iff_eq]
  intro hxn
  exact h (hxn ▸ List.mem_map_of_mem Document.name hx)

/-- In a store with unique names, a present name matches exactly one
stored document. -/
theorem filter_name_of_nodup (m : List Document) (n : String)
    (h : (m.map Document.name).Nodup) (hmem : n ∈ m.map Document.name) :
    ∃ x, m.filter (fun y => y.name == n) = [x] ∧ x.name = n := by
  induction m with
  | nil => simp at hmem
  | cons a m ih =>
    simp only [List.map_cons, List.nodup_cons] at h
    obtain ⟨hna, hnd⟩ := h
    by_cases hb : a.name = n
    · refine ⟨a, ?_, hb⟩
      have hnotin : n ∉ m.map Document.name := hb ▸ hna
      have hnil : m.filter (fun y => y.name == n) = [] :=
        filter_name_of_not_mem m n hnotin
      simp [List.filter_cons, hb, hnil]
    · have hmem' : n ∈ m.map Document.name := by
        rcases (by simpa using hmem : n = a.name ∨ ∃ y ∈ m, y.name = n) with
          h1 | ⟨y, hy, hyn⟩
        · exact absurd h1.symm hb
        · exact List.mem_map.mpr ⟨y, hy, hyn⟩
      obtain ⟨x, hx1, hx2⟩ := ih hnd hmem'
      refine ⟨x, ?_, hx2⟩
      rw [List.filter_cons]
      simp only [beq_iff_eq, hb, if_false]
      simpa [hb] using hx1

/-- After inserting `d` into a store with unique names, `d.name` matches
exactly `d` — last write wins. -/
theorem filter_dictInsert (m : List Document) (d : Document)
    (h : (m.map Document.name).Nodup) :
    (dictInsert m d).filter (fun x => x.name == d.name) = [d] := by
  unfold dictInsert
  split
  · rename_i hany
    rw [List.filter_map]
    have hmem : d.name ∈ m.map Document.name := (any_name_iff m d.name).mp hany
    have hcongr : m.filter
        ((fun x => x.name == d.name) ∘ fun x => if x.name == d.name then d else x) =
        m.filter (fun y => y.name == d.name) := by
      apply List.filter_congr
      intro x hx
      by_cases hb : x.name = d.name
      · simp [Function.comp, hb]
      · simp [Function.comp, hb]
    rw [hcongr]
    obtain ⟨x, hx1, hx2⟩ := filter_name_of_nodup m d.name h hmem
    rw [hx1]
    simp [hx2]
  · rename_i hany
    have hnotin : d.name ∉ m.map Document.name := by
      rw [← any_name_iff]
      simpa using hany
    rw [List.filter_append, filter_name_of_not_mem m d.name hnotin]
    simp

/-- C5: ingesting two documents with the same name in sequence into a
fallback store with unique names leaves exactly one entry under that name
holding the second document (content included), while the summary's
ingested count counts both insertions. -/
theorem claim_C5 (s : StubGraphRAGChatEngine) (d1 d2 : Document)
    (hnd : (s.documents.map Document.name).Nodup)
    (_hname : d1.name = d2.name) (_hcontent : d1.content ≠ d2.content) :
    ((s.ingest [d1, d2]).1.documents.filter (fun x => x.name == d2.name)) = [d2] ∧
    (s.ingest [d1, d2]).2.documents_ingested = 2 := by
  refine ⟨?_, rfl⟩
  show (dictInsert (dictInsert s.documents d1) d2).filter
      (fun x => x.name == d2.name) = [d2]
  exact filter_dictInsert _ _ (dictInsert_nodup _ _ hnd)

/-- Witness for C5: `a.txt` ingested twice with different contents. -/
theorem claim_C5_witness :
    ((StubGraphRAGChatEngine.ingest ⟨[], []⟩
        [⟨"a.txt", "one", []⟩, ⟨"a.txt", "two", []⟩]).1.documents.filter
      (fun x => x.name == "a.txt")) = [⟨"a.txt", "two", []⟩] ∧
    (StubGraphRAGChatEngine.ingest ⟨[], []⟩
        [⟨"a.txt", "one", []⟩, ⟨"a.txt", "two", []⟩]).2.documents_ingested = 2 :=
  claim_C5 ⟨[], []⟩ ⟨"a.txt", "one", []⟩ ⟨"a.txt", "two", []⟩
    (by decide) (by decide) (by decide)

/-- Folding `dictInsert` over documents whose names are fresh and unique
appends them in order. -/
theorem foldl_dictInsert_eq_append (docs : List Document) :
    ∀ acc : List Document,
      (acc.map Document.name ++ docs.map Document.name).Nodup →
      docs.foldl dictInsert acc = acc ++ docs := by
  induction docs with
  | nil =>
    intro acc _
    simp
  | cons d rest ih =>
    intro acc h
    have hd_notin : ¬acc.any (fun x => x.name == d.name) = true := by
      rw [any_name_iff]
      intro hmem
      rw [List.nodup_append] at h
      exact h.2.2 hmem (by simp)
    have hstep : dictInsert acc d = acc ++ [d] := by
      unfold dictInsert
      rw [if_neg hd_notin]
    have hnd' : ((acc ++ [d]).map Document.name ++ rest.map Document.name).Nodup := by
      simpa [List.append_assoc] using h
    simp only [List.foldl_cons, hstep]
    rw [ih (acc ++ [d]) hnd']
    simp

/-- A dict built from documents with pairwise-distinct names lists exactly
those documents in order. -/
theorem mkDocMap_of_nodup (docs : List Document)
    (h : (docs.map Document.name).Nodup) : mkDocMap docs = docs := by
  have := foldl_dictInsert_eq_append docs [] (by simpa using h)
  simpa [mkDocMap] using this

/-- C9: every successful non-empty production ingest replaces the document
map wholesale with the dict of that call's documents keyed by name
(independently of any earlier state), so `get_documents()` returns exactly
that call's documents when their names are distinct. -/
theorem claim_C9 (cfg : GraphRAGConfig) (eff : BackendEffects)
    (s : GraphRAGService) (docs : List Document)
    (s' : GraphRAGService) (summary : IngestSummary)
    (hne : docs ≠ [])
    (hok : GraphRAGService.ingest cfg eff s docs = .ok (s', summary)) :
    s'.documents = mkDocMap docs ∧
    ((docs.map Document.name).Nodup → s'.getDocuments = docs) := by
  have hdocs : s'.documents = mkDocMap docs := by
    unfold GraphRAGService.ingest at hok
    simp only [bind, Except.bind] at hok
    repeat' split at hok
    all_goals try (exact Except.noConfusion hok)
    all_goals simp only [Except.ok.injEq, Prod.mk.injEq] at hok
    all_goals exact (congrArg GraphRAGService.documents hok.1).symm.trans rfl
  exact ⟨hdocs, fun hnd => by
    show s'.documents = docs
    rw [hdocs, mkDocMap_of_nodup docs hnd]⟩

/-- Witness for C9: a successful two-document ingest on a fresh state. -/
theorem claim_C9_witness :
    ({ documents := mkDocMap [⟨"a.txt", "A", []⟩, ⟨"b.txt", "B", []⟩],
       hasKnowledgeGraph := true, hasModelConfig := true,
       ontology := some 5, chatSession := some 7,
       lastIngestSummary := some
         { documents_ingested := 2, total_documents := 2,
           graph_name := some "kg", ontology_path := some "ont",
           ontology_refreshed := true, using_stub := false,
           document_names := ["a.txt", "b.txt"] } } : GraphRAGService).documents =
      mkDocMap [⟨"a.txt", "A", []⟩, ⟨"b.txt", "B", []⟩] ∧
    (([⟨"a.txt", "A", []⟩, ⟨"b.txt", "B", []⟩].map Document.name).Nodup →
      GraphRAGService.getDocuments
        { documents := mkDocMap [⟨"a.txt", "A", []⟩, ⟨"b.txt", "B", []⟩],
          hasKnowledgeGraph := true, hasModelConfig := true,
          ontology := some 5, chatSession := some 7,
          lastIngestSummary := some
            { documents_ingested := 2, total_documents := 2,
              graph_name := some "kg", ontology_path := some "ont",
              ontology_refreshed := true, using_stub := false,
              document_names := ["a.txt", "b.txt"] } } =
        [⟨"a.txt", "A", []⟩, ⟨"b.txt", "B", []⟩]) :=
  claim_C9 ⟨"kg", "ont", true, false, false⟩ ⟨true, .ok 5, 7, .ok none⟩ {}
    [⟨"a.txt", "A", []⟩, ⟨"b.txt", "B", []⟩] _
    { documents_ingested := 2, total_documents := 2,
      graph_name := some "kg", ontology_path := some "ont",
      ontology_refreshed := true, using_stub := false,
      document_names := ["a.txt", "b.txt"] }
    (by decide) rfl

/-- C10: the fallback ranking scores over the set of distinct lower-cased
prompt tokens, so a prompt whose token list repeats a word produces
exactly the same ranked list (documents and scores) as one listing that
word once — ranking is invariant under duplication of prompt tokens. -/
theorem claim_C10 (s : StubGraphRAGChatEngine) (p q : String)
    (pre mid post : List String) (w : String)
    (hp : (pySplit p).map pyLower = pre ++ w :: (mid ++ w :: post))
    (hq : (pySplit q).map pyLower = pre ++ w :: (mid ++ post)) :
    StubGraphRAGChatEngine.buildHighlights s p =
      StubGraphRAGChatEngine.buildHighlights s q := by
  unfold StubGraphRAGChatEngine.buildHighlights StubGraphRAGChatEngine.promptTokens
  rw [hp, hq]
  have htok : (pre ++ w :: (mid ++ w :: post)).toFinset =
      (pre ++ w :: (mid ++ post)).toFinset := by
    ext a
    simp only [List.mem_toFinset, List.mem_append, List.mem_cons]
    tauto
  rw [htok]

/-- Witness for C10: "alpha beta alpha" ranks like "alpha beta". -/
theorem claim_C10_witness :
    StubGraphRAGChatEngine.buildHighlights
        ⟨[⟨"report.txt", "Alpha beta", []⟩], []⟩ "alpha beta alpha" =
      StubGraphRAGChatEngine.buildHighlights
        ⟨[⟨"report.txt", "Alpha beta", []⟩], []⟩ "alpha beta" :=
  claim_C10 ⟨[⟨"report.txt", "Alpha beta", []⟩], []⟩ "alpha beta alpha" "alpha beta"
    [] ["beta"] [] "alpha" (by decide) (by decide)

end GraphRAG
